import Mathlib

set_option maxRecDepth 1000000

/-!
Verification development for the Uniswap v4 liquidity-management bot
(`uniswap-reward-liq`).

The shallow embedding below translates the numeric and decision core of the
repository into Lean:

* `getSqrtRatioAtTick` — tick → √price conversion (`src/utils/tick/tickMath.ts`,
  absent from the sources; modelled from the spec, see its doc comment);
* `nearestUsableTick`, `getAmount0`, `getAmount1` — `src/utils/tick/calculateTicks.ts`;
* `mulDivRoundingUp`, `getAmount0Delta`, `getAmount1Delta` — `src/utils/tick/sqrtPriceMath.ts`;
* `computeCounterpartyAmounts` — `src/utils/calcAmountForliquidity.ts`;
* `monitorStep` / `monitorRun` — the position-health portion of the monitoring
  callback in `src/index.ts`;
* `decideRebalance` — the rebalancing portion of the same callback;
* `cronTick` / `cycleCompletes` — the scheduler re-entrancy guard in `src/index.ts`;
* `fetchPriceUSD` — the stablecoin short-circuit of `src/utils/price.ts`.

TypeScript `bigint` values are embedded as `Int`; `bigint` division truncates
toward zero, hence every source `/` on bigints becomes `Int.tdiv` and every `%`
becomes `Int.tmod`.  A TypeScript bigint division whose divisor is zero throws a
`RangeError`; divisions whose divisor is a nonzero literal are embedded as plain
truncating division, and the three divisors of `computeCounterpartyAmounts` that
depend on the pool state get explicit zero tests that map to
`SizeOutcome.failure RunError.divisionByZero`.  The USD policy layer of the bot
uses JavaScript floating-point numbers; it is embedded over `ℚ` with the same
formulas, which is exact where the claims quantify.
-/

/-- Modelled from the spec: the repository imports `TickMath.getSqrtRatioAtTick`
from `src/utils/tick/tickMath.ts`, a file that is absent from the sources (only
its callers survive).  Spec §4.2 fixes its behaviour: reproduce, bit for bit,
the canonical AMM tick → √price conversion (`price = 1.0001^tick`, encoded in
Q96) via "the standard bit-shift/magic-constant algorithm", valid on ticks in
`[-887272, 887272]`.  `getSqrtRatioAtTickAux` is the magic-constant product over
the bits of `|tick|`, in Q128. -/
def getSqrtRatioAtTickAux (absTick : Nat) : Nat :=
  let r := if absTick &&& 0x1 ≠ 0 then 0xfffcb933bd6fad37aa2d162d1a594001
    else 0x100000000000000000000000000000000
  let r := if absTick &&& 0x2 ≠ 0 then (r * 0xfff97272373d413259a46990580e213a) >>> 128 else r
  let r := if absTick &&& 0x4 ≠ 0 then (r * 0xfff2e50f5f656932ef12357cf3c7fdcc) >>> 128 else r
  let r := if absTick &&& 0x8 ≠ 0 then (r * 0xffe5caca7e10e4e61c3624eaa0941cd0) >>> 128 else r
  let r := if absTick &&& 0x10 ≠ 0 then (r * 0xffcb9843d60f6159c9db58835c926644) >>> 128 else r
  let r := if absTick &&& 0x20 ≠ 0 then (r * 0xff973b41fa98c081472e6896dfb254c0) >>> 128 else r
  let r := if absTick &&& 0x40 ≠ 0 then (r * 0xff2ea16466c96a3843ec78b326b52861) >>> 128 else r
  let r := if absTick &&& 0x80 ≠ 0 then (r * 0xfe5dee046a99a2a811c461f1969c3053) >>> 128 else r
  let r := if absTick &&& 0x100 ≠ 0 then (r * 0xfcbe86c7900a88aedcffc83b479aa3a4) >>> 128 else r
  let r := if absTick &&& 0x200 ≠ 0 then (r * 0xf987a7253ac413176f2b074cf7815e54) >>> 128 else r
  let r := if absTick &&& 0x400 ≠ 0 then (r * 0xf3392b0822b70005940c7a398e4b70f3) >>> 128 else r
  let r := if absTick &&& 0x800 ≠ 0 then (r * 0xe7159475a2c29b7443b29c7fa6e889d9) >>> 128 else r
  let r := if absTick &&& 0x1000 ≠ 0 then (r * 0xd097f3bdfd2022b8845ad8f792aa5825) >>> 128 else r
  let r := if absTick &&& 0x2000 ≠ 0 then (r * 0xa9f746462d870fdf8a65dc1f90e061e5) >>> 128 else r
  let r := if absTick &&& 0x4000 ≠ 0 then (r * 0x70d869a156d2a1b890bb3df62baf32f7) >>> 128 else r
  let r := if absTick &&& 0x8000 ≠ 0 then (r * 0x31be135f97d08fd981231505542fcfa6) >>> 128 else r
  let r := if absTick &&& 0x10000 ≠ 0 then (r * 0x9aa508b5b7a84e1c677de54f3e99bc9) >>> 128 else r
  let r := if absTick &&& 0x20000 ≠ 0 then (r * 0x5d6af8dedb81196699c329225ee604) >>> 128 else r
  let r := if absTick &&& 0x40000 ≠ 0 then (r * 0x2216e584f5fa1ea926041bedfe98) >>> 128 else r
  if absTick &&& 0x80000 ≠ 0 then (r * 0x48a170391f7dc42444e8fa2) >>> 128 else r

/-- The largest unsigned 256-bit integer, used by the canonical conversion. -/
def maxUint256 : Nat := 2 ^ 256 - 1

/-- Modelled from the spec: final stage of the canonical tick → √price
conversion of §4.2 — invert the Q128 ratio for positive ticks, then shift from
Q128 down to Q96 rounding up.  On this port, `getSqrtRatioAtTick 887272` and
`getSqrtRatioAtTick (-887272)` equal the canonical protocol constants
`1461446703485210103287273052203988822378723970342` and `4295128739`,
confirming bit-for-bit agreement with the standard algorithm. -/
def getSqrtRatioAtTick (tick : Int) : Int :=
  let absTick : Nat := tick.natAbs
  let r := getSqrtRatioAtTickAux absTick
  let r := if 0 < tick then maxUint256 / r else r
  Int.ofNat (if r % 2 ^ 32 ≠ 0 then r / 2 ^ 32 + 1 else r / 2 ^ 32)

/-- A snapped tick range, `{ tickLower, tickUpper }` as returned by
`nearestUsableTick` in `src/utils/tick/calculateTicks.ts`. -/
structure TickRange where
  tickLower : Int
  tickUpper : Int
deriving DecidableEq

/-- Ceiling division on `Int`, modelling JavaScript `Math.ceil(a / b)` for
integer `a` and positive integer `b` (float division followed by ceiling). -/
def cdiv (a b : Int) : Int := -(Int.fdiv (-a) b)

/-- Embedding of `nearestUsableTick` (src/utils/tick/calculateTicks.ts:93-120).
`Math.floor(tick / tickSpacing)` on integer arguments is floor division
(`Int.fdiv`), `Math.ceil` is `cdiv`.  The source's optional `rangeWidth`
parameter (default `1`) is passed explicitly here. -/
def nearestUsableTick (tick tickSpacing rangeWidth : Int) : TickRange :=
  let lowerTick := (Int.fdiv tick tickSpacing) * tickSpacing
  let upperTick0 := (cdiv tick tickSpacing) * tickSpacing
  let upperTick := if upperTick0 ≤ lowerTick then lowerTick + tickSpacing else upperTick0
  if rangeWidth = 1 then
    ⟨lowerTick, upperTick⟩
  else
    let extraTicks := rangeWidth - 1
    ⟨lowerTick - extraTicks * tickSpacing, upperTick + extraTicks * tickSpacing⟩

/-- `Q96 = 2^96` (written `1n << 96n` in `calcAmountForliquidity.ts` and
`2n ** 96n` in `sqrtPriceMath.ts`). -/
def q96 : Int := 2 ^ 96

/-- Embedding of `FullMath.mulDivRoundingUp` (src/utils/tick/sqrtPriceMath.ts):
`result = (a*b)/denominator`, incremented when the remainder is nonzero. -/
def mulDivRoundingUp (a b denominator : Int) : Int :=
  let product := a * b
  let result := Int.tdiv product denominator
  if Int.tmod product denominator ≠ 0 then result + 1 else result

/-- Embedding of `SqrtPriceMath.getAmount0Delta` (src/utils/tick/sqrtPriceMath.ts):
operands are swapped so the smaller √price comes first, then
`liquidity·2^96·(√b−√a)` is divided by `√b` and `√a` in sequence, with the
caller's rounding direction. -/
def getAmount0Delta (sqrtRatioAX96 sqrtRatioBX96 liquidity : Int) (roundUp : Bool) : Int :=
  let a := if sqrtRatioAX96 > sqrtRatioBX96 then sqrtRatioBX96 else sqrtRatioAX96
  let b := if sqrtRatioAX96 > sqrtRatioBX96 then sqrtRatioAX96 else sqrtRatioBX96
  let numerator1 := liquidity * q96
  let numerator2 := b - a
  if roundUp then mulDivRoundingUp (mulDivRoundingUp numerator1 numerator2 b) 1 a
  else Int.tdiv (Int.tdiv (numerator1 * numerator2) b) a

/-- Embedding of `SqrtPriceMath.getAmount1Delta` (src/utils/tick/sqrtPriceMath.ts):
after the swap, `liquidity·(√b−√a)/2^96` with the caller's rounding direction. -/
def getAmount1Delta (sqrtRatioAX96 sqrtRatioBX96 liquidity : Int) (roundUp : Bool) : Int :=
  let a := if sqrtRatioAX96 > sqrtRatioBX96 then sqrtRatioBX96 else sqrtRatioAX96
  let b := if sqrtRatioAX96 > sqrtRatioBX96 then sqrtRatioAX96 else sqrtRatioBX96
  let difference := b - a
  if roundUp then mulDivRoundingUp liquidity difference q96
  else Int.tdiv (liquidity * difference) q96

/-- Embedding of `getAmount0` (src/utils/tick/calculateTicks.ts:131-155): the
three-way case split on the current tick against the range; positions entirely
above the current tick hold no token0. -/
def getAmount0 (tickLower tickUpper currTick amount currSqrtPriceX96 : Int) : Int :=
  let sqrtRatioAX96 := getSqrtRatioAtTick tickLower
  let sqrtRatioBX96 := getSqrtRatioAtTick tickUpper
  let roundUp := 0 < amount
  if currTick < tickLower then getAmount0Delta sqrtRatioAX96 sqrtRatioBX96 amount roundUp
  else if currTick < tickUpper then getAmount0Delta currSqrtPriceX96 sqrtRatioBX96 amount roundUp
  else 0

/-- Embedding of `getAmount1` (src/utils/tick/calculateTicks.ts:166-192):
positions entirely below the current tick hold no token1; the straddling branch
measures from the lower √price up to the current √price. -/
def getAmount1 (tickLower tickUpper currTick amount currSqrtPriceX96 : Int) : Int :=
  let sqrtRatioAX96 := getSqrtRatioAtTick tickLower
  let sqrtRatioBX96 := getSqrtRatioAtTick tickUpper
  let roundUp := 0 < amount
  if currTick < tickLower then 0
  else if currTick < tickUpper then getAmount1Delta sqrtRatioAX96 currSqrtPriceX96 amount roundUp
  else getAmount1Delta sqrtRatioAX96 sqrtRatioBX96 amount roundUp

/-- The `BALANCE_RATIO` constant of `src/config/config.ts:10` (`40n`, commented
there as "40% Ratio of available balance to use for creating positions"). -/
def balanceRatioCfg : Int := 40

/-- The percentage selected by `calcAmountForliquidity.ts:48`:
`process.env.BALANCE_RATIO ? BigInt(Number(BALANCE_RATIO) * 100) : 50n`.
`envSet` records whether the `BALANCE_RATIO` environment variable is present;
when it is, the imported config constant (`40n`) is multiplied by `100`. -/
def deployablePct (envSet : Bool) : Int :=
  if envSet then balanceRatioCfg * 100 else 50

/-- The deployable balance derived from a raw wallet balance
(`calcAmountForliquidity.ts:50-51`): `(balanceWei * percentage) / multiplier`
with `multiplier = 100n`. -/
def deployableBalance (envSet : Bool) (raw : Int) : Int :=
  Int.tdiv (raw * deployablePct envSet) 100

/-- The sizer's result record (`amount0`, `amount1`, `tickLower`, `tickUpper`)
as returned by `computeCounterpartyAmounts`. -/
structure SizingResult where
  amount0 : Int
  amount1 : Int
  tickLower : Int
  tickUpper : Int
deriving DecidableEq

/-- Failure modes for the sizer.  `divisionByZero` models the `RangeError`
thrown by a TypeScript bigint division with zero divisor.
`priceAtRangeBoundary` is the error the spec's §4.4 claims the sizer raises at
a range boundary; it is included so that this claim can be stated — the code
never produces it. -/
inductive RunError where
  | divisionByZero
  | priceAtRangeBoundary
deriving DecidableEq

/-- Outcome of a `computeCounterpartyAmounts` call: a `SizingResult`, or an
abnormal termination. -/
inductive SizeOutcome where
  | ok (r : SizingResult)
  | failure (e : RunError)
deriving DecidableEq

/-- Embedding of `computeCounterpartyAmounts`
(src/utils/calcAmountForliquidity.ts:21-105).  The on-chain reads are inputs:
`bal0Wei`/`bal1Wei` are the wallet balances returned by `getTokenPairBalances`,
`sqrtPriceX96`/`tick` the pool state from `getPoolData`, and `envSet` whether
the `BALANCE_RATIO` environment variable is present.  The three divisors that
depend on the pool state — `(√P_upper − √P)·2^96`, `√P − √P_lower` and
`√P_upper·√P` — are tested for zero, mirroring the `RangeError` a TypeScript
bigint division by zero throws; all other divisors are nonzero literals. -/
def computeCounterpartyAmounts (bal0Wei bal1Wei sqrtPriceX96 tick tickSpacing : Int)
    (envSet : Bool) : SizeOutcome :=
  let bal0Raw := deployableBalance envSet bal0Wei
  let bal1Raw := deployableBalance envSet bal1Wei
  let range := nearestUsableTick tick tickSpacing 1
  let sqrtRatioLowerX96 := getSqrtRatioAtTick range.tickLower
  let sqrtRatioUpperX96 := getSqrtRatioAtTick range.tickUpper
  let priceX192 := sqrtPriceX96 * sqrtPriceX96
  let value0Raw := Int.tdiv (bal0Raw * priceX192) (q96 * q96)
  if value0Raw < bal1Raw then
    if (sqrtRatioUpperX96 - sqrtPriceX96) * q96 = 0 then .failure .divisionByZero
    else
      let liquidity := Int.tdiv (bal0Raw * sqrtPriceX96 * sqrtRatioUpperX96)
        ((sqrtRatioUpperX96 - sqrtPriceX96) * q96)
      let amount1 := Int.tdiv (liquidity * (sqrtPriceX96 - sqrtRatioLowerX96)) q96
      .ok ⟨bal0Raw, amount1, range.tickLower, range.tickUpper⟩
  else
    if sqrtPriceX96 - sqrtRatioLowerX96 = 0 then .failure .divisionByZero
    else
      let liquidity := Int.tdiv (bal1Raw * q96) (sqrtPriceX96 - sqrtRatioLowerX96)
      if sqrtRatioUpperX96 * sqrtPriceX96 = 0 then .failure .divisionByZero
      else
        let amount0 := Int.tdiv (liquidity * (sqrtRatioUpperX96 - sqrtPriceX96) * q96)
          (sqrtRatioUpperX96 * sqrtPriceX96)
        .ok ⟨amount0, bal1Raw, range.tickLower, range.tickUpper⟩

/-- Per-position tracking state of the monitoring loop in `src/index.ts`:
`tracking` is whether `currentPositionId` is defined, `outOfRangeCount` the
module-level counter. -/
structure MonitorState where
  tracking : Bool
  outOfRangeCount : Nat
deriving DecidableEq

/-- One monitoring cycle's position-health transition (src/index.ts:118-130):
an in-range observation resets the counter; an out-of-range observation
increments it and, once `outOfRangeCount >= OUT_OF_RANGE_THRESHOLD`, a removal
request is emitted (the `Bool` component), `currentPositionId` is cleared and
the counter reset.  `inR` is `pos.inRange` for this cycle; a closed
(untracked) position yields no action. -/
def monitorStep (threshold : Nat) (s : MonitorState) (inR : Bool) : MonitorState × Bool :=
  if !s.tracking then (s, false)
  else if inR then (⟨true, 0⟩, false)
  else if threshold ≤ s.outOfRangeCount + 1 then (⟨false, 0⟩, true)
  else (⟨true, s.outOfRangeCount + 1⟩, false)

/-- Iterate `monitorStep` over a sequence of in-range observations, collecting
the removal-request flag emitted by each cycle. -/
def monitorRun (threshold : Nat) (s : MonitorState) : List Bool → List Bool
  | [] => []
  | o :: rest =>
    let p := monitorStep threshold s o
    p.2 :: monitorRun threshold p.1 rest

/-- `REBALANCE_THRESHOLD` (src/config/config.ts:12): `0.1`. -/
def rebalanceThreshold : ℚ := 1 / 10

/-- A swap request emitted by the rebalancing check: `tokenInIsToken1` is
`true` for a token1→token0 swap, and `amountIn` is the input-token amount
(the value the source passes to `toFixed` and then to `executeSwap`). -/
structure SwapAction where
  tokenInIsToken1 : Bool
  amountIn : ℚ
deriving DecidableEq

/-- Embedding of the rebalancing decision in the monitoring callback
(src/index.ts:132-188), over `ℚ` in place of JavaScript floats.  `bal0`/`bal1`
are the formatted balances, `price0`/`price1` the `fetchPriceUSD` results
(`none` = `null`).  The guard `!token0PriceUSD || !token1PriceUSD` treats both
`null` and `0` as falsy, which the zero test mirrors.  At most one swap is
emitted per evaluation, token0 checked first, each sized against a target of
`0.3` of total USD value. -/
def decideRebalance (bal0 bal1 : ℚ) (price0 price1 : Option ℚ) : Option SwapAction :=
  match price0, price1 with
  | some p0, some p1 =>
    if p0 = 0 ∨ p1 = 0 then none
    else
      let token0ValueUSD := bal0 * p0
      let token1ValueUSD := bal1 * p1
      let totalValueUSD := token0ValueUSD + token1ValueUSD
      let r0 := token0ValueUSD / totalValueUSD
      let r1 := token1ValueUSD / totalValueUSD
      if r0 ≤ rebalanceThreshold then
        some ⟨true, (totalValueUSD * (3 / 10) - token0ValueUSD) / p1⟩
      else if r1 ≤ rebalanceThreshold then
        some ⟨false, (totalValueUSD * (3 / 10) - token1ValueUSD) / p0⟩
      else none
  | _, _ => none

/-- Scheduler state for the re-entrancy analysis of `src/index.ts`:
`isProcessing` is the module-level flag (line 39), `runningCycles` counts cycle
bodies currently in flight. -/
structure SchedState where
  isProcessing : Bool
  runningCycles : Nat
deriving DecidableEq

/-- The scheduler's initial state: `isProcessing = false`, nothing running. -/
def initialSched : SchedState := ⟨false, 0⟩

/-- A cron timer tick firing (src/index.ts:93-94): the callback checks
`if (isProcessing) return;` and otherwise starts executing its body.  The
callback contains no assignment to `isProcessing` anywhere in its body
(src/index.ts:93-193), so entering a cycle leaves the flag untouched. -/
def cronTick (s : SchedState) : SchedState :=
  if s.isProcessing then s else ⟨s.isProcessing, s.runningCycles + 1⟩

/-- A cycle body finishing.  The body performs no assignment to
`isProcessing`, so completion also leaves the flag untouched. -/
def cycleCompletes (s : SchedState) : SchedState :=
  ⟨s.isProcessing, s.runningCycles - 1⟩

/-- The configured USDC address (src/utils/price.ts:121), as characters. -/
def usdcAddress : List Char := "0x078D782b760474a361dDA0AF3839290b0EF57AD6".toList

/-- The configured USDT address (src/utils/price.ts:122), as characters. -/
def usdtAddress : List Char := "0x9151434b16b9763660705744891fA906F660EcC5".toList

/-- Embedding of `fetchPriceUSD` (src/utils/price.ts:117-198).  Addresses are
character lists and `toLowerCase` is `List.map Char.toLower`.  The function
first compares the query address case-insensitively against the configured
stablecoin addresses (USDC then USDT, the object-entry order) and returns
`1.0` on a match; only otherwise does it consult token/stablecoin pools, an
external read abstracted by the `poolPriceUSD` parameter. -/
def fetchPriceUSD (poolPriceUSD : List Char → Option ℚ) (tokenAddress : List Char) : Option ℚ :=
  let tokenAddressLower := tokenAddress.map Char.toLower
  if usdcAddress.map Char.toLower = tokenAddressLower then some 1
  else if usdtAddress.map Char.toLower = tokenAddressLower then some 1
  else poolPriceUSD tokenAddress

/-- Claim C4 (code_bug evidence): the deployable-balance computation at the
failing input `raw = 100`.  With the `BALANCE_RATIO` environment variable
present the code multiplies the config constant `40` by `100`, yielding
`100·4000/100 = 4000` — 40×, not 40%, of the raw balance, exceeding it;
with the variable absent it uses `50n`, yielding `50`.  Neither path equals
the `⌊100·40/100⌋ = 40` the claim states, and the env-set path contradicts
`deployable ≤ raw`. -/
theorem deployableBalance_at_100 :
    deployableBalance true 100 = 4000 ∧
    deployableBalance false 100 = 50 ∧
    100 < deployableBalance true 100 ∧
    deployableBalance true 100 ≠ 40 ∧
    deployableBalance false 100 ≠ 40 := by
  decide

/-- Claim C9 (code_bug evidence): the `isProcessing` flag is never assigned by
any cycle, so it is `false` in every reachable state and a timer tick firing
while a previous cycle is still in flight passes the guard and starts a second
concurrent cycle: after two ticks with no completion in between, two cycle
bodies are running. -/
theorem isProcessing_guard_ineffective :
    (cronTick (cronTick initialSched)).runningCycles = 2 ∧
    (∀ s : SchedState, (cronTick s).isProcessing = s.isProcessing ∧
      (cycleCompletes s).isProcessing = s.isProcessing) ∧
    (∀ s : SchedState, s.isProcessing = false →
      (cronTick s).runningCycles = s.runningCycles + 1) := by
  refine ⟨rfl, fun s => ⟨?_, rfl⟩, fun s h => ?_⟩
  · unfold cronTick
    split <;> rfl
  · unfold cronTick
    rw [h]
    rfl

/-- Claim C10: any token address equal, case-insensitively, to the configured
USDC or USDT address is priced at exactly `1.0` USD by `fetchPriceUSD`,
whatever the pool oracle would answer — the pool branch is never consulted. -/
theorem fetchPriceUSD_stablecoin (poolPriceUSD : List Char → Option ℚ)
    (tokenAddress : List Char)
    (h : tokenAddress.map Char.toLower = usdcAddress.map Char.toLower ∨
      tokenAddress.map Char.toLower = usdtAddress.map Char.toLower) :
    fetchPriceUSD poolPriceUSD tokenAddress = some 1 := by
  unfold fetchPriceUSD
  rcases h with h | h
  · rw [if_pos h.symm]
  · by_cases h0 : usdcAddress.map Char.toLower = tokenAddress.map Char.toLower
    · rw [if_pos h0]
    · rw [if_neg h0, if_pos h.symm]

/-- Witness for C10: the USDC address written in upper case is priced at
`1.0` under an oracle that knows no pool prices at all. -/
theorem fetchPriceUSD_stablecoin_witness :
    fetchPriceUSD (fun _ => none) "0X078D782B760474A361DDA0AF3839290B0EF57AD6".toList
      = some 1 :=
  fetchPriceUSD_stablecoin (fun _ => none)
    "0X078D782B760474A361DDA0AF3839290B0EF57AD6".toList (Or.inl (by decide))

/-- Once tracking has stopped (the position was closed), no later cycle emits
a removal request. -/
theorem monitorRun_untracked (threshold c : Nat) (obs : List Bool) :
    (monitorRun threshold ⟨false, c⟩ obs).count true = 0 := by
  induction obs with
  | nil => rfl
  | cons o rest ih =>
    simp only [monitorRun, monitorStep]
    simp [ih]

/-- Over any observation sequence, a tracked position emits at most one
removal request: emission closes the position, and closed positions stay
silent. -/
theorem monitorRun_count_le_one (threshold : Nat) (obs : List Bool) :
    ∀ c : Nat, (monitorRun threshold ⟨true, c⟩ obs).count true ≤ 1 := by
  induction obs with
  | nil => intro c; simp [monitorRun]
  | cons o rest ih =>
    intro c
    simp only [monitorRun, monitorStep]
    by_cases ho : o
    · subst ho
      simpa using ih 0
    · simp only [Bool.not_eq_true] at ho
      subst ho
      by_cases hth : threshold ≤ c + 1
      · rw [if_pos hth]
        simp [monitorRun_untracked]
      · rw [if_neg hth]
        simpa using ih (c + 1)

/-- Claim C5: for a tracked position, an in-range observation resets the
out-of-range counter to zero and emits nothing; an out-of-range observation
emits a removal request precisely in the cycle in which the consecutive
counter reaches the threshold (`c + 1 = threshold`, for any reachable counter
value `c < threshold`); over any observation sequence at most one removal
request is ever emitted; and the concrete sequence
`[out, out, in, out, out, out]` with threshold 3 emits exactly one removal
request, in the final cycle. -/
theorem monitor_removal_on_threshold (threshold c : Nat) (obs : List Bool)
    (hc : c < threshold) :
    monitorStep threshold ⟨true, c⟩ true = (⟨true, 0⟩, false) ∧
    ((monitorStep threshold ⟨true, c⟩ false).2 = true ↔ c + 1 = threshold) ∧
    (monitorRun threshold ⟨true, 0⟩ obs).count true ≤ 1 ∧
    monitorRun 3 ⟨true, 0⟩ [false, false, true, false, false, false]
      = [false, false, false, false, false, true] := by
  refine ⟨by simp [monitorStep], ?_, monitorRun_count_le_one threshold obs 0, by decide⟩
  show (if threshold ≤ c + 1 then ((⟨false, 0⟩ : MonitorState), true)
    else (⟨true, c + 1⟩, false)).2 = true ↔ c + 1 = threshold
  by_cases hth : threshold ≤ c + 1
  · rw [if_pos hth]
    exact ⟨fun _ => by omega, fun _ => rfl⟩
  · rw [if_neg hth]
    exact ⟨fun habs => absurd habs (by simp), fun heq => absurd hth (by omega)⟩

/-- Witness for C5: with threshold 3, an out-of-range observation at counter 2
emits the removal request, an in-range observation at counter 2 resets the
counter, and the spec's six-cycle scenario emits exactly the final removal. -/
theorem monitor_removal_on_threshold_witness :
    (monitorStep 3 ⟨true, 2⟩ false).2 = true ∧
    monitorStep 3 ⟨true, 2⟩ true = (⟨true, 0⟩, false) ∧
    monitorRun 3 ⟨true, 0⟩ [false, false, true, false, false, false]
      = [false, false, false, false, false, true] :=
  ⟨(monitor_removal_on_threshold 3 2 [] (by decide)).2.1.mpr (by decide),
   (monitor_removal_on_threshold 3 2 [] (by decide)).1,
   (monitor_removal_on_threshold 3 2 [] (by decide)).2.2.2⟩

/-- Claim C6: when both USD prices are available (and nonzero, per the
JavaScript falsiness guard) and token0's value share is at or below the
rebalance threshold, the decider emits exactly one swap, in the direction
token1→token0, whose input amount is `(0.3·total − value0)/price1` token1
units — so that the token0 USD value after exchanging that amount at the
quoted price is exactly 30% of the total portfolio value. -/
theorem decideRebalance_token0_low (bal0 bal1 p0 p1 : ℚ)
    (hp0 : p0 ≠ 0) (hp1 : p1 ≠ 0)
    (htot : 0 < bal0 * p0 + bal1 * p1)
    (hr : bal0 * p0 / (bal0 * p0 + bal1 * p1) ≤ rebalanceThreshold) :
    decideRebalance bal0 bal1 (some p0) (some p1)
        = some ⟨true, ((bal0 * p0 + bal1 * p1) * (3 / 10) - bal0 * p0) / p1⟩ ∧
    bal0 * p0 + (((bal0 * p0 + bal1 * p1) * (3 / 10) - bal0 * p0) / p1) * p1
        = (3 / 10) * (bal0 * p0 + bal1 * p1) := by
  constructor
  · simp only [decideRebalance]
    rw [if_neg (by tauto), if_pos hr]
  · rw [div_mul_cancel₀ _ hp1]
    ring

/-- Witness for C6: balances `(1, 95)` at prices `(5, 1)` give token0 a 5%
share; the decider swaps `25` token1 for token0, and `5 + 25·1 = 30` is
exactly 30% of the total `100`. -/
theorem decideRebalance_token0_low_witness :
    decideRebalance 1 95 (some 5) (some 1)
        = some ⟨true, ((1 * 5 + 95 * 1) * (3 / 10) - 1 * 5) / 1⟩ ∧
    (1 : ℚ) * 5 + (((1 * 5 + 95 * 1) * (3 / 10) - 1 * 5) / 1) * 1
        = (3 / 10) * (1 * 5 + 95 * 1) :=
  decideRebalance_token0_low 1 95 5 1 (by norm_num) (by norm_num) (by norm_num)
    (by norm_num [rebalanceThreshold])

/-- Floor division times the divisor stays at or below the dividend. -/
theorem fdiv_mul_le_self (t s : Int) (hs : 0 < s) : Int.fdiv t s * s ≤ t := by
  rw [Int.fdiv_eq_ediv _ (le_of_lt hs)]
  exact Int.ediv_mul_le t (ne_of_gt hs)

/-- Ceiling division times the divisor stays at or above the dividend. -/
theorem le_cdiv_mul_self (t s : Int) (hs : 0 < s) : t ≤ cdiv t s * s := by
  unfold cdiv
  have h := fdiv_mul_le_self (-t) s hs
  have := neg_le_neg h
  simpa [neg_mul] using this

/-- Claim C7: for every tick, positive tick spacing and range width at least
one, `nearestUsableTick` returns a strictly ordered pair of ticks that are
both exact multiples of the spacing, and with the default width 1 the range
contains the input tick. -/
theorem nearestUsableTick_bounds (tick tickSpacing rangeWidth : Int)
    (hs : 0 < tickSpacing) (hw : 1 ≤ rangeWidth) :
    tickSpacing ∣ (nearestUsableTick tick tickSpacing rangeWidth).tickLower ∧
    tickSpacing ∣ (nearestUsableTick tick tickSpacing rangeWidth).tickUpper ∧
    (nearestUsableTick tick tickSpacing rangeWidth).tickLower
      < (nearestUsableTick tick tickSpacing rangeWidth).tickUpper ∧
    (rangeWidth = 1 →
      (nearestUsableTick tick tickSpacing rangeWidth).tickLower ≤ tick ∧
      tick ≤ (nearestUsableTick tick tickSpacing rangeWidth).tickUpper) := by
  have hLle : Int.fdiv tick tickSpacing * tickSpacing ≤ tick := fdiv_mul_le_self tick tickSpacing hs
  have hUge : tick ≤ cdiv tick tickSpacing * tickSpacing := le_cdiv_mul_self tick tickSpacing hs
  have hdvdL : tickSpacing ∣ Int.fdiv tick tickSpacing * tickSpacing := dvd_mul_left _ _
  have hdvdU : tickSpacing ∣ cdiv tick tickSpacing * tickSpacing := dvd_mul_left _ _
  have he : 0 ≤ (rangeWidth - 1) * tickSpacing :=
    mul_nonneg (by omega) (le_of_lt hs)
  simp only [nearestUsableTick]
  by_cases hr : rangeWidth = 1
  · rw [if_pos hr]
    by_cases hcase : cdiv tick tickSpacing * tickSpacing ≤ Int.fdiv tick tickSpacing * tickSpacing
    · rw [if_pos hcase]
      refine ⟨hdvdL, dvd_add hdvdL dvd_rfl, ?_, fun _ => ⟨hLle, ?_⟩⟩
      · show Int.fdiv tick tickSpacing * tickSpacing
          < Int.fdiv tick tickSpacing * tickSpacing + tickSpacing
        linarith
      · show tick ≤ Int.fdiv tick tickSpacing * tickSpacing + tickSpacing
        linarith
    · rw [if_neg hcase]
      push_neg at hcase
      exact ⟨hdvdL, hdvdU, hcase, fun _ => ⟨hLle, hUge⟩⟩
  · rw [if_neg hr]
    by_cases hcase : cdiv tick tickSpacing * tickSpacing ≤ Int.fdiv tick tickSpacing * tickSpacing
    · rw [if_pos hcase]
      refine ⟨dvd_sub hdvdL (dvd_mul_left _ _),
        dvd_add (dvd_add hdvdL dvd_rfl) (dvd_mul_left _ _), ?_, fun h1 => absurd h1 hr⟩
      show Int.fdiv tick tickSpacing * tickSpacing - (rangeWidth - 1) * tickSpacing
        < Int.fdiv tick tickSpacing * tickSpacing + tickSpacing + (rangeWidth - 1) * tickSpacing
      linarith
    · rw [if_neg hcase]
      push_neg at hcase
      refine ⟨dvd_sub hdvdL (dvd_mul_left _ _), dvd_add hdvdU (dvd_mul_left _ _),
        ?_, fun h1 => absurd h1 hr⟩
      show Int.fdiv tick tickSpacing * tickSpacing - (rangeWidth - 1) * tickSpacing
        < cdiv tick tickSpacing * tickSpacing + (rangeWidth - 1) * tickSpacing
      linarith

/-- Witness for C7: at tick `-7`, spacing `10`, width `1`, the snapped range
is divisible by the spacing, strictly ordered, and contains the tick. -/
theorem nearestUsableTick_bounds_witness :
    (10 : Int) ∣ (nearestUsableTick (-7) 10 1).tickLower ∧
    (10 : Int) ∣ (nearestUsableTick (-7) 10 1).tickUpper ∧
    (nearestUsableTick (-7) 10 1).tickLower < (nearestUsableTick (-7) 10 1).tickUpper ∧
    ((nearestUsableTick (-7) 10 1).tickLower ≤ -7 ∧
      (-7 : Int) ≤ (nearestUsableTick (-7) 10 1).tickUpper) :=
  have h := nearestUsableTick_bounds (-7) 10 1 (by decide) (by decide)
  ⟨h.1, h.2.1, h.2.2.1, h.2.2.2 rfl⟩

/-- The modelled tick → √price conversion never returns a negative value (its
result is a cast from `Nat`). -/
theorem getSqrtRatioAtTick_nonneg (tick : Int) : 0 ≤ getSqrtRatioAtTick tick := by
  simp only [getSqrtRatioAtTick]
  exact Int.ofNat_nonneg _

/-- Both percentage paths of the sizer (env-set and default) are non-negative. -/
theorem deployablePct_nonneg (envSet : Bool) : 0 ≤ deployablePct envSet := by
  cases envSet <;> decide

/-- A non-negative raw balance yields a non-negative deployable balance. -/
theorem deployableBalance_nonneg (envSet : Bool) (raw : Int) (h : 0 ≤ raw) :
    0 ≤ deployableBalance envSet raw :=
  Int.tdiv_nonneg (mul_nonneg h (deployablePct_nonneg envSet)) (by decide)

/-- `Q96` is positive. -/
theorem q96_pos : (0 : Int) < q96 := by norm_num [q96]

/-- Claim C1: whenever the sizer returns a result, the orientation of the
constraint comparison is exactly the source's: if the token1-denominated value
of the deployable token0 balance is strictly below the deployable token1
balance, `amount0` is the deployable token0 balance used in full; otherwise
`amount1` is the deployable token1 balance used in full.  The orientation is
never inverted. -/
theorem computeCounterpartyAmounts_orientation (bal0Wei bal1Wei sqrtPriceX96 tick tickSpacing : Int)
    (envSet : Bool) (r : SizingResult)
    (h : computeCounterpartyAmounts bal0Wei bal1Wei sqrtPriceX96 tick tickSpacing envSet
      = SizeOutcome.ok r) :
    (Int.tdiv (deployableBalance envSet bal0Wei * (sqrtPriceX96 * sqrtPriceX96)) (q96 * q96)
        < deployableBalance envSet bal1Wei →
      r.amount0 = deployableBalance envSet bal0Wei) ∧
    (deployableBalance envSet bal1Wei ≤
        Int.tdiv (deployableBalance envSet bal0Wei * (sqrtPriceX96 * sqrtPriceX96)) (q96 * q96) →
      r.amount1 = deployableBalance envSet bal1Wei) := by
  simp only [computeCounterpartyAmounts] at h
  split at h
  · rename_i hlt
    split at h
    · exact SizeOutcome.noConfusion h
    · cases h
      exact ⟨fun _ => rfl, fun hle => absurd hlt (not_lt.mpr hle)⟩
  · rename_i hge
    split at h
    · exact SizeOutcome.noConfusion h
    · split at h
      · exact SizeOutcome.noConfusion h
      · cases h
        exact ⟨fun hlt => absurd hlt hge, fun _ => rfl⟩

/-- Witness for C1: in the pool at tick 30 (spacing 60, price taken at tick
30) with wallet balances `2000000` / `2000000000000` and the `BALANCE_RATIO`
environment variable absent, token0 is the constraint side and its full
deployable balance (`1000000`) is deployed as `amount0`. -/
theorem computeCounterpartyAmounts_orientation_witness :
    (SizingResult.mk 1000000 1003004 0 60).amount0 = deployableBalance false 2000000 :=
  (computeCounterpartyAmounts_orientation 2000000 2000000000000 (getSqrtRatioAtTick 30) 30 60 false
    ⟨1000000, 1003004, 0, 60⟩ (by decide)).1 (by decide)

/-- Claim C2, amended: the sizer never produces a `PriceAtRangeBoundary`
error — no such error exists in the code.  When the pool √price equals the
√price at the computed upper tick and token0 is the binding side, or equals
the √price at the computed lower tick and token1 is the binding side, the
branch taken divides by zero and the computation fails with the raw bigint
division-by-zero error. -/
theorem computeCounterpartyAmounts_boundary (bal0Wei bal1Wei sqrtPriceX96 tick tickSpacing : Int)
    (envSet : Bool) :
    computeCounterpartyAmounts bal0Wei bal1Wei sqrtPriceX96 tick tickSpacing envSet
      ≠ SizeOutcome.failure RunError.priceAtRangeBoundary ∧
    (sqrtPriceX96 = getSqrtRatioAtTick (nearestUsableTick tick tickSpacing 1).tickUpper →
      Int.tdiv (deployableBalance envSet bal0Wei * (sqrtPriceX96 * sqrtPriceX96)) (q96 * q96)
        < deployableBalance envSet bal1Wei →
      computeCounterpartyAmounts bal0Wei bal1Wei sqrtPriceX96 tick tickSpacing envSet
        = SizeOutcome.failure RunError.divisionByZero) ∧
    (sqrtPriceX96 = getSqrtRatioAtTick (nearestUsableTick tick tickSpacing 1).tickLower →
      deployableBalance envSet bal1Wei ≤
        Int.tdiv (deployableBalance envSet bal0Wei * (sqrtPriceX96 * sqrtPriceX96)) (q96 * q96) →
      computeCounterpartyAmounts bal0Wei bal1Wei sqrtPriceX96 tick tickSpacing envSet
        = SizeOutcome.failure RunError.divisionByZero) := by
  refine ⟨?_, ?_, ?_⟩
  · simp only [computeCounterpartyAmounts]
    split
    · split <;> simp
    · split
      · simp
      · split <;> simp
  · intro heq hlt
    subst heq
    simp only [computeCounterpartyAmounts]
    rw [if_pos hlt, sub_self, zero_mul, if_pos rfl]
  · intro heq hge
    subst heq
    simp only [computeCounterpartyAmounts]
    rw [if_neg (not_lt.mpr hge), sub_self, if_pos rfl]

/-- Witness for C2 (amended): with the pool √price pinned to the upper
boundary (tick 0, spacing 60, √price at tick 60, token0 binding) or to the
lower boundary (√price `2^96` at tick 0, token1 binding), the sizer fails
with the division-by-zero error. -/
theorem computeCounterpartyAmounts_boundary_witness :
    computeCounterpartyAmounts 20 1000000000000 (getSqrtRatioAtTick 60) 0 60 false
      = SizeOutcome.failure RunError.divisionByZero ∧
    computeCounterpartyAmounts 1000000 10 (getSqrtRatioAtTick 0) 0 60 false
      = SizeOutcome.failure RunError.divisionByZero :=
  ⟨(computeCounterpartyAmounts_boundary 20 1000000000000 (getSqrtRatioAtTick 60) 0 60 false).2.1
      (by decide) (by decide),
   (computeCounterpartyAmounts_boundary 1000000 10 (getSqrtRatioAtTick 0) 0 60 false).2.2
      (by decide) (by decide)⟩

/-- Counterexample to C2 as stated: at pool √price `2^96`, which equals the
√price at the computed `tickLower` (tick 0, spacing 60), and balances making
token1 the binding side, the sizer fails with the raw division-by-zero
error — not with `PriceAtRangeBoundary`. -/
theorem priceAtBoundary_counterexample :
    getSqrtRatioAtTick ((nearestUsableTick 0 60 1).tickLower) = 2 ^ 96 ∧
    computeCounterpartyAmounts 1000000 10 (2 ^ 96) 0 60 false
      = SizeOutcome.failure RunError.divisionByZero ∧
    computeCounterpartyAmounts 1000000 10 (2 ^ 96) 0 60 false
      ≠ SizeOutcome.failure RunError.priceAtRangeBoundary := by
  decide

/-- Claim C3, amended: for an in-range pool price and non-negative wallet
balances, any returned sizing result has non-negative amounts, and the
constrained side's amount equals (hence never exceeds) its deployable
balance.  (The derived counterpart amount is not bounded by its deployable
balance — see the counterexample.) -/
theorem computeCounterpartyAmounts_bounds (bal0Wei bal1Wei sqrtPriceX96 tick tickSpacing : Int)
    (envSet : Bool) (r : SizingResult)
    (hb0 : 0 ≤ bal0Wei) (hb1 : 0 ≤ bal1Wei)
    (hlo : getSqrtRatioAtTick (nearestUsableTick tick tickSpacing 1).tickLower < sqrtPriceX96)
    (hhi : sqrtPriceX96 < getSqrtRatioAtTick (nearestUsableTick tick tickSpacing 1).tickUpper)
    (h : computeCounterpartyAmounts bal0Wei bal1Wei sqrtPriceX96 tick tickSpacing envSet
      = SizeOutcome.ok r) :
    0 ≤ r.amount0 ∧ 0 ≤ r.amount1 ∧
    (Int.tdiv (deployableBalance envSet bal0Wei * (sqrtPriceX96 * sqrtPriceX96)) (q96 * q96)
        < deployableBalance envSet bal1Wei →
      r.amount0 ≤ deployableBalance envSet bal0Wei) ∧
    (deployableBalance envSet bal1Wei ≤
        Int.tdiv (deployableBalance envSet bal0Wei * (sqrtPriceX96 * sqrtPriceX96)) (q96 * q96) →
      r.amount1 ≤ deployableBalance envSet bal1Wei) := by
  have hq : (0 : Int) < q96 := q96_pos
  have hL0 : 0 ≤ getSqrtRatioAtTick (nearestUsableTick tick tickSpacing 1).tickLower :=
    getSqrtRatioAtTick_nonneg _
  have hP : 0 < sqrtPriceX96 := lt_of_le_of_lt hL0 hlo
  have hU : 0 < getSqrtRatioAtTick (nearestUsableTick tick tickSpacing 1).tickUpper :=
    lt_trans hP hhi
  simp only [computeCounterpartyAmounts] at h
  split at h
  · rename_i hlt
    split at h
    · exact SizeOutcome.noConfusion h
    · cases h
      have hliq : 0 ≤ Int.tdiv
          (deployableBalance envSet bal0Wei * sqrtPriceX96 *
            getSqrtRatioAtTick (nearestUsableTick tick tickSpacing 1).tickUpper)
          ((getSqrtRatioAtTick (nearestUsableTick tick tickSpacing 1).tickUpper - sqrtPriceX96)
            * q96) :=
        Int.tdiv_nonneg
          (mul_nonneg (mul_nonneg (deployableBalance_nonneg envSet bal0Wei hb0) (le_of_lt hP))
            (le_of_lt hU))
          (mul_nonneg (by linarith) (le_of_lt hq))
      refine ⟨deployableBalance_nonneg envSet bal0Wei hb0, ?_, fun _ => le_refl _,
        fun hle => absurd hlt (not_lt.mpr hle)⟩
      exact Int.tdiv_nonneg (mul_nonneg hliq (by linarith)) (le_of_lt hq)
  · rename_i hge
    split at h
    · exact SizeOutcome.noConfusion h
    · split at h
      · exact SizeOutcome.noConfusion h
      · cases h
        have hliq : 0 ≤ Int.tdiv (deployableBalance envSet bal1Wei * q96)
            (sqrtPriceX96 - getSqrtRatioAtTick (nearestUsableTick tick tickSpacing 1).tickLower) :=
          Int.tdiv_nonneg (mul_nonneg (deployableBalance_nonneg envSet bal1Wei hb1) (le_of_lt hq))
            (by linarith)
        refine ⟨?_, deployableBalance_nonneg envSet bal1Wei hb1,
          fun hlt => absurd hlt hge, fun _ => le_refl _⟩
        exact Int.tdiv_nonneg
          (mul_nonneg (mul_nonneg hliq (by linarith)) (le_of_lt hq))
          (mul_nonneg (le_of_lt hU) (le_of_lt hP))

/-- Witness for C3 (amended): the tick-30 scenario of the C1 witness yields
amounts that are non-negative, with the constrained side's amount within its
deployable balance. -/
theorem computeCounterpartyAmounts_bounds_witness :
    (SizingResult.mk 1000000 1003004 0 60).amount0 ≤ deployableBalance false 2000000 ∧
    0 ≤ (SizingResult.mk 1000000 1003004 0 60).amount1 :=
  have h := computeCounterpartyAmounts_bounds 2000000 2000000000000 (getSqrtRatioAtTick 30) 30 60
    false ⟨1000000, 1003004, 0, 60⟩ (by decide) (by decide) (by decide) (by decide) (by decide)
  ⟨h.2.2.1 (by decide), h.2.1⟩

/-- Counterexample to C3 as stated: at tick 59 (spacing 60), with the pool
√price strictly inside the snapped range `[0, 60]`, wallet balances
`2000000` / `2011836` make token0 the constraint side (deployable balances
`1000000` and `1005918`), yet the derived `amount1 = 59263143` exceeds the
deployable token1 balance by a factor of about 59. -/
theorem sizing_exceeds_balance_counterexample :
    getSqrtRatioAtTick ((nearestUsableTick 59 60 1).tickLower) < getSqrtRatioAtTick 59 ∧
    getSqrtRatioAtTick 59 < getSqrtRatioAtTick ((nearestUsableTick 59 60 1).tickUpper) ∧
    computeCounterpartyAmounts 2000000 2011836 (getSqrtRatioAtTick 59) 59 60 false
      = SizeOutcome.ok ⟨1000000, 59263143, 0, 60⟩ ∧
    deployableBalance false 2011836 < 59263143 := by
  decide

/-- Claim C8, amended: with a well-ordered range, `getAmount0` returns `0`
whenever the current tick is at or above `tickUpper`, and `getAmount1`
returns `0` whenever the current tick is strictly below `tickLower`.  (At
`currTick = tickLower` the straddling branch computes `getAmount1` from the
current √price, which need not be zero — see the counterexample.) -/
theorem getAmount_zero_cases (tickLower tickUpper currTick amount currSqrtPriceX96 : Int)
    (h : tickLower < tickUpper) :
    (tickUpper ≤ currTick →
      getAmount0 tickLower tickUpper currTick amount currSqrtPriceX96 = 0) ∧
    (currTick < tickLower →
      getAmount1 tickLower tickUpper currTick amount currSqrtPriceX96 = 0) := by
  constructor
  · intro hge
    simp only [getAmount0]
    rw [if_neg (by omega), if_neg (by omega)]
  · intro hlt
    simp only [getAmount1]
    rw [if_pos hlt]

/-- Witness for C8 (amended): in the range `[0, 60]`, a position holds no
token0 at tick 100 and no token1 at tick −5. -/
theorem getAmount_zero_cases_witness :
    getAmount0 0 60 100 5 (2 ^ 96) = 0 ∧ getAmount1 0 60 (-5) 5 (2 ^ 96) = 0 :=
  ⟨(getAmount_zero_cases 0 60 100 5 (2 ^ 96) (by decide)).1 (by decide),
   (getAmount_zero_cases 0 60 (-5) 5 (2 ^ 96) (by decide)).2 (by decide)⟩

/-- Counterexample to C8 as stated: with range `[0, 60]`, positive liquidity
`1` and current tick exactly `tickLower = 0` (a tick "at or below
tickLower"), `getAmount1` at current √price `2^97` returns `1`, not `0` —
the code's below-range test is strict. -/
theorem getAmount1_at_lower_tick_counterexample :
    (0 : Int) < 60 ∧ (0 : Int) < 1 ∧ (0 : Int) ≤ 0 ∧
    getAmount1 0 60 0 1 (2 ^ 97) = 1 := by
  decide
